import Mathlib

/-!
Verification development for the coverage-llm-gen repository.

Part 1 embeds the client-side event payload model and the shape-check
helpers of `client/app/contexts/SSEContext.tsx`.
Part 2 embeds the EventHub connection state machine of the same file
(reconnect backoff, payload parsing, listener notification).
Part 3 embeds the server-side task poller and improvement pipeline of
`src/tasks/tasks.service.ts`.
-/

namespace CoverageGen

/-! ## Part 1: JavaScript value model and SSE shape-check helpers -/

/-- A model of the JavaScript values that a decoded event payload can be:
`undefined`, `null`, booleans, numbers (integer model; no claim depends on
float semantics), strings, and objects as ordered field lists. -/
inductive JSVal where
  | vUndefined : JSVal
  | vNull : JSVal
  | vBool : Bool → JSVal
  | vNum : Int → JSVal
  | vStr : String → JSVal
  | vObj : List (String × JSVal) → JSVal

/-- JavaScript truthiness: `undefined`, `null`, `false`, `0` and `""` are
falsy; every object is truthy. -/
def truthy : JSVal → Bool
  | .vUndefined => false
  | .vNull => false
  | .vBool b => b
  | .vNum n => !(n == 0)
  | .vStr s => !(s == "")
  | .vObj _ => true

/-- Field lookup in an object's field list (JS objects have unique keys;
lookup returns the first match). -/
def getFieldList : List (String × JSVal) → String → JSVal
  | [], _ => .vUndefined
  | (k, v) :: rest, key => if k == key then v else getFieldList rest key

/-- JavaScript property access `x.f`: `undefined` when the field is absent or
the value is not an object.  (Access on `null`/`undefined` throws in JS, but
every guard in the source short-circuits on truthiness first, so that case is
never reached by the embedded code.) -/
def getField : JSVal → String → JSVal
  | .vObj fs, key => getFieldList fs key
  | _, _ => .vUndefined

/-- JavaScript `typeof`. -/
def typeofStr : JSVal → String
  | .vUndefined => "undefined"
  | .vNull => "object"
  | .vBool _ => "boolean"
  | .vNum _ => "number"
  | .vStr _ => "string"
  | .vObj _ => "object"

/-- JavaScript strict equality `v === "s"` against a string literal:
true exactly when `v` is that string. -/
def strictEqStr (v : JSVal) (s : String) : Bool :=
  match v with
  | .vStr t => t == s
  | _ => false

/-- JavaScript strict inequality `v !== undefined`. -/
def notUndefined (v : JSVal) : Bool :=
  match v with
  | .vUndefined => false
  | _ => true

/-- Optional chaining `x.f?.g`: `undefined` when `x.f` is `null` or
`undefined`, otherwise the `g` field of `x.f`. -/
def optChainField (x : JSVal) (f g : String) : JSVal :=
  match getField x f with
  | .vUndefined => .vUndefined
  | .vNull => .vUndefined
  | m => getField m g

/-- `isTaskProgressEvent` from `SSEContext.tsx`: truthy value with string
`taskId`, `repoId`, `filePath`, `repoName`, `message` fields and a defined
`eventType`. -/
def isTaskProgressEvent (data : JSVal) : Bool :=
  truthy data &&
  typeofStr (getField data "taskId") == "string" &&
  typeofStr (getField data "repoId") == "string" &&
  typeofStr (getField data "filePath") == "string" &&
  typeofStr (getField data "repoName") == "string" &&
  notUndefined (getField data "eventType") &&
  typeofStr (getField data "message") == "string"

/-- `isTaskStartedEvent` from `SSEContext.tsx`. -/
def isTaskStartedEvent (data : JSVal) : Bool :=
  truthy data &&
  typeofStr (getField data "taskId") == "string" &&
  typeofStr (getField data "repoId") == "string" &&
  typeofStr (getField data "filePath") == "string" &&
  typeofStr (getField data "repoName") == "string"

/-- `isTaskCompletedEvent` from `SSEContext.tsx`:
`isTaskProgressEvent(data) && data.eventType === TaskEventType.COMPLETE`. -/
def isTaskCompletedEvent (data : JSVal) : Bool :=
  isTaskProgressEvent data && strictEqStr (getField data "eventType") "complete"

/-- `isTaskErrorEvent` from `SSEContext.tsx`:
`isTaskProgressEvent(data) && data.eventType === TaskEventType.ERROR &&
data.metadata?.error !== undefined`. -/
def isTaskErrorEvent (data : JSVal) : Bool :=
  isTaskProgressEvent data &&
  strictEqStr (getField data "eventType") "error" &&
  notUndefined (optChainField data "metadata" "error")

/-- `isHeartbeatEvent` from `SSEContext.tsx`: `data && data.timestamp`
used as a boolean guard, i.e. the truthiness of both. -/
def isHeartbeatEvent (data : JSVal) : Bool :=
  truthy data && truthy (getField data "timestamp")

/-- Value is a string. -/
def isStrVal : JSVal → Bool
  | .vStr _ => true
  | _ => false

/-- Value is a non-empty string; a serialized timestamp is always one. -/
def isTimestampVal : JSVal → Bool
  | .vStr s => !(s == "")
  | _ => false

/-- Value is an object. -/
def isObjVal : JSVal → Bool
  | .vObj _ => true
  | _ => false

/-- Value is one of the five progress `eventType` sentinels of the wire
contract: setup-repo, generate-suggestions, create-pr, complete, error. -/
def isEventTypeSentinel : JSVal → Bool
  | .vStr s =>
      s == "setup-repo" || s == "generate-suggestions" || s == "create-pr" ||
      s == "complete" || s == "error"
  | _ => false

/-- Modelled from the spec: a well-formed progress payload has string
`taskId`, `repoId`, `filePath`, `repoName`, `message`, an `eventType` among
the five sentinels, a serialized `timestamp`, and a `metadata` field that is
absent or an object map. -/
def wellFormedProgressPayload (x : JSVal) : Bool :=
  isObjVal x &&
  isStrVal (getField x "taskId") &&
  isStrVal (getField x "repoId") &&
  isStrVal (getField x "filePath") &&
  isStrVal (getField x "repoName") &&
  isEventTypeSentinel (getField x "eventType") &&
  isStrVal (getField x "message") &&
  isTimestampVal (getField x "timestamp") &&
  (!(notUndefined (getField x "metadata")) || isObjVal (getField x "metadata"))

/-- Modelled from the spec: a well-formed started payload has string
`taskId`, `repoId`, `filePath`, `repoName` and a serialized `timestamp`. -/
def wellFormedStartedPayload (x : JSVal) : Bool :=
  isObjVal x &&
  isStrVal (getField x "taskId") &&
  isStrVal (getField x "repoId") &&
  isStrVal (getField x "filePath") &&
  isStrVal (getField x "repoName") &&
  isTimestampVal (getField x "timestamp")

/-- Modelled from the spec: the completed variant is a well-formed progress
payload whose `eventType` is the `complete` sentinel. -/
def wellFormedCompletedPayload (x : JSVal) : Bool :=
  wellFormedProgressPayload x && strictEqStr (getField x "eventType") "complete"

/-- Modelled from the spec: the error variant is a well-formed progress
payload whose `eventType` is the `error` sentinel and whose `metadata`
includes an `error` string. -/
def wellFormedErrorPayload (x : JSVal) : Bool :=
  wellFormedProgressPayload x &&
  strictEqStr (getField x "eventType") "error" &&
  isStrVal (getField (getField x "metadata") "error")

/-- Modelled from the spec: a well-formed heartbeat payload is an object
with at least a serialized `timestamp`. -/
def wellFormedHeartbeatPayload (x : JSVal) : Bool :=
  isObjVal x && isTimestampVal (getField x "timestamp")

/-! ## Part 2: the EventHub connection state machine

Embeds the `SSEProvider` logic of `SSEContext.tsx`: the five known event
kinds, the listener registry, the `onopen`/`onerror` handlers with
exponential backoff, and the per-kind message handler that parses the
textual payload, updates `lastEvent` and notifies listeners. -/

/-- The five known event kinds (`SSEEventType` in the source). -/
inductive SSEEventType where
  | taskProgress | taskStarted | taskCompleted | taskError | heartbeat
deriving DecidableEq

/-- A typed envelope `{type, data}` (`SSEEvent` in the source). -/
structure SSEEvent where
  type : SSEEventType
  data : JSVal

/-- A registered listener: an identity (JS `Set` membership is by function
identity) together with its behaviour, which may throw (`Except.error`). -/
structure SSEListener where
  id : Nat
  run : SSEEvent → Except String Unit

/-- The hub's mutable state: connection flags, `lastEvent`, the reconnect
attempt counter and the listener registry (kind → ordered listeners). -/
structure HubState where
  isConnected : Bool
  lastEvent : Option SSEEvent
  connectionError : Option String
  reconnectAttempts : Nat
  listeners : SSEEventType → List SSEListener

/-- The backoff delay computed in `onerror`:
`Math.min(1000 * Math.pow(2, attempts), 30000)`. -/
def backoffDelay (attempts : Nat) : Nat :=
  min (1000 * 2 ^ attempts) 30000

/-- The `onopen` handler: connected, error cleared, attempts reset to 0. -/
def onOpen (st : HubState) : HubState :=
  { st with isConnected := true, connectionError := none, reconnectAttempts := 0 }

/-- The `onerror` handler: disconnected, error recorded, a reconnection is
scheduled after `backoffDelay attempts` ms and the counter is incremented.
Returns the new state together with the scheduled delay. -/
def onError (st : HubState) : HubState × Nat :=
  ({ st with
      isConnected := false
      connectionError := some "SSE connection failed"
      reconnectAttempts := st.reconnectAttempts + 1 },
   backoffDelay st.reconnectAttempts)

/-- Iterate `n` consecutive transport failures from state `st`. -/
def errRun (st : HubState) : Nat → HubState
  | 0 => st
  | n + 1 => (onError (errRun st n)).1

/-- The delay scheduled by the `(n+1)`-th consecutive failure, i.e. the one
fired after `n` previous failures. -/
def nthDelay (st : HubState) (n : Nat) : Nat :=
  (onError (errRun st n)).2

/-- The caught outcome of running one listener inside its `try`/`catch`:
the listener identity together with the error it threw, if any. -/
def runCaught (l : SSEListener) (ev : SSEEvent) : Nat × Option String :=
  (l.id, match l.run ev with
         | .ok _ => none
         | .error e => some e)

/-- `notifyListeners` from the source: every listener registered for the
event's kind is run in registration order, each inside its own
`try`/`catch`; a throwing listener is logged and does not stop the rest.
Returns the invocation log. -/
def notifyListeners (st : HubState) (ev : SSEEvent) : List (Nat × Option String) :=
  (st.listeners ev.type).map (fun l => runCaught l ev)

/-- The per-kind message handler attached in `connect()`: parse the textual
payload; on failure log and drop (the `catch` branch: no state change, no
listener call); on success overwrite `lastEvent` and notify the listeners
registered for this kind.  Total by construction: no exception escapes. -/
def handleIncoming (parse : String → Option JSVal) (st : HubState)
    (kind : SSEEventType) (raw : String) : HubState × List (Nat × Option String) :=
  match parse raw with
  | none => (st, [])
  | some d =>
      let ev : SSEEvent := ⟨kind, d⟩
      ({ st with lastEvent := some ev }, notifyListeners st ev)

/-! ## Part 3: the task poller and improvement pipeline

Embeds `TasksService` of `src/tasks/tasks.service.ts`.  External
collaborators (filesystem, git shell-outs, the AI adapter, the PR
submitter, the repo-name parser, `crypto.randomUUID`) are an environment
of outcomes; each awaited call either returns a value or rejects
(`Outcome.threw`), and the `Result`-returning collaborators additionally
carry their `Result`.  The record store is modelled from the spec: a list
of task records with fields id, repoId, path, status (the spec states no
uniqueness constraint on `path`) and a list of repo records. -/

/-- Task record status (`files.status` column). -/
inductive Status where
  | queued | processing | processed | error
deriving DecidableEq

/-- A task record (`RepoFile` row): id, repoId, path, status. -/
structure TaskRec where
  id : Nat
  repoId : Nat
  path : String
  status : Status
deriving DecidableEq

/-- A repository record (`repos` row): id and url. -/
structure RepoRec where
  id : Nat
  url : String
deriving DecidableEq

/-- Modelled from the spec: the durable store holding the task records and
repo records the poller queries (`drizzleService.db`; the schema file is not
part of the sources). -/
structure Store where
  files : List TaskRec
  repos : List RepoRec

/-- The outcome of one awaited external call: a value, or a rejection that
propagates as a thrown exception. -/
inductive Outcome (α : Type) where
  | ok : α → Outcome α
  | threw : String → Outcome α
deriving DecidableEq

/-- The environment of external collaborators for one pipeline run. -/
structure Env where
  /-- `repoService.getRepoNameFromUrl`: a `Result` of the short name. -/
  repoNameFromUrl : String → Except String String
  /-- `crypto.randomUUID()`. -/
  uuid : String
  /-- `fs.cp(existingPath, newPath, {recursive: true})`. -/
  cp : Outcome Unit
  /-- `execAsync("cd … && git checkout -b enhance/tests-…")`. -/
  checkoutBranch : Outcome Unit
  /-- `fs.readFile` of the derived test file. -/
  readTestFile : Outcome String
  /-- `fs.readFile` of the source file. -/
  readSourceFile : Outcome String
  /-- `genAiService.generateSuggestions(testContents, fileContents)`;
  the response value may be absent or empty (falsy). -/
  genai : String → String → Outcome (Option String)
  /-- `fs.writeFile` of the revised test content. -/
  writeTest : Outcome Unit
  /-- `execAsync("cd … && git add . && git commit … && git push …")`. -/
  commitPush : Outcome Unit
  /-- `githubService.submitPR(newPath, filePath, uuid)`: a `Result`. -/
  submitPR : Outcome (Except String Unit)

/-- `path.join(a, b)` for the relative segments used by the service. -/
def pathJoin (a b : String) : String :=
  a ++ "/" ++ b

/-- Leading-position match of `pat` against `s` (list form). -/
def startsWithL : List Char → List Char → Bool
  | [], _ => true
  | _ :: _, [] => false
  | p :: ps, c :: cs => p == c && startsWithL ps cs

/-- JavaScript `String.prototype.replace` with a string pattern (list form):
replace only the first occurrence of `pat` by `rep`, scanning left to
right; no occurrence leaves the list unchanged. -/
def replaceFirstL (pat rep : List Char) : List Char → List Char
  | [] => if startsWithL pat [] then rep else []
  | c :: cs =>
      if startsWithL pat (c :: cs) then rep ++ (c :: cs).drop pat.length
      else c :: replaceFirstL pat rep cs

/-- JavaScript `s.replace(pat, rep)` on strings. -/
def jsReplaceFirst (s pat rep : String) : String :=
  ⟨replaceFirstL pat.data rep.data s.data⟩

/-- The test-file path derivation used by the service for both the read and
the overwrite: `filePath.replace('.ts', '.test.ts')`. -/
def derivedTestPath (filePath : String) : String :=
  jsReplaceFirst filePath ".ts" ".test.ts"

/-- Modelled from the spec: the test path said to be intended — the source
path with its `.ts` extension swapped for the `.test.ts` suffix, nothing
else altered. -/
def specSwapExtPath (filePath : String) : String :=
  (filePath.dropRight 3) ++ ".test.ts"

/-- The external side effects a pipeline run performed, in order. -/
structure Effects where
  copiedWorkspace : Bool
  checkedOutBranch : Bool
  readTestPath : Option String
  readSourcePath : Option String
  wroteTestPath : Option String
  ranCommitPush : Bool
  submittedPR : Bool
deriving DecidableEq

/-- No effects yet. -/
def noEffects : Effects :=
  ⟨false, false, none, none, none, false, false⟩

/-- The outcome of `handleGenerateImprovements`: the returned `Result`
(`ok` or an `err` message), or a rejection that escapes the function;
each carries the effects performed up to that point. -/
inductive PipeResult where
  | ok : Effects → PipeResult
  | resultErr : String → Effects → PipeResult
  | thrown : String → Effects → PipeResult
deriving DecidableEq

/-- The effects carried by a pipeline outcome. -/
def PipeResult.effects : PipeResult → Effects
  | .ok e => e
  | .resultErr _ e => e
  | .thrown _ e => e

/-- The falsy check `if (!response)` on the adapter's return value. -/
def falsyResponse : Option String → Bool
  | none => true
  | some s => s == ""

/-- `handleGenerateImprovements` from `tasks.service.ts`, step for step:
resolve the repo (`err` if absent), parse its short name (`err` on
failure), copy the canonical workspace to `./repos/{name}-{uuid}`, check
out `enhance/tests-{uuid}`, read the derived test file and the source
file, call the AI adapter (`err` on falsy response), overwrite the test
file, run the chained add/commit/push, submit the PR (`err` on submitter
failure).  Awaited rejections propagate as `thrown`; only the explicit
`err(...)` returns produce `resultErr`. -/
def handleGenerateImprovements (env : Env) (repos : List RepoRec)
    (file : TaskRec) : PipeResult :=
  match repos.find? (fun r => r.id == file.repoId) with
  | none => .resultErr "Repo not found" noEffects
  | some repo =>
    match env.repoNameFromUrl repo.url with
    | .error _ => .resultErr "Repo name not found" noEffects
    | .ok repoName =>
      let filePath := file.path
      let newPath := pathJoin "./repos" (repoName ++ "-" ++ env.uuid)
      match env.cp with
      | .threw m => .thrown m noEffects
      | .ok _ =>
        let e₁ := { noEffects with copiedWorkspace := true }
        match env.checkoutBranch with
        | .threw m => .thrown m e₁
        | .ok _ =>
          let e₂ := { e₁ with checkedOutBranch := true }
          let testPath := pathJoin newPath (derivedTestPath filePath)
          match env.readTestFile with
          | .threw m => .thrown m e₂
          | .ok testContents =>
            let e₃ := { e₂ with readTestPath := some testPath }
            match env.readSourceFile with
            | .threw m => .thrown m e₃
            | .ok fileContents =>
              let e₄ := { e₃ with readSourcePath := some (pathJoin newPath filePath) }
              match env.genai testContents fileContents with
              | .threw m => .thrown m e₄
              | .ok response =>
                if falsyResponse response then
                  .resultErr "no response returned" e₄
                else
                  match env.writeTest with
                  | .threw m => .thrown m e₄
                  | .ok _ =>
                    let e₅ := { e₄ with wroteTestPath := some testPath }
                    match env.commitPush with
                    | .threw m => .thrown m e₅
                    | .ok _ =>
                      let e₆ := { e₅ with ranCommitPush := true }
                      match env.submitPR with
                      | .threw m => .thrown m e₆
                      | .ok (.error e) =>
                          .resultErr ("PR submission failed: " ++ e) e₆
                      | .ok (.ok _) => .ok { e₆ with submittedPR := true }

/-- `db.update(files).set({status}).where(eq(files.path, p))`: the status
write is keyed by file path and touches every record whose path matches. -/
def setStatusByPath (db : Store) (p : String) (s : Status) : Store :=
  { db with
      files := db.files.map (fun f => if f.path == p then { f with status := s } else f) }

/-- The observable trace of one scheduler tick: the final store, the
selected record (if any), and the store right after the write-ahead
`processing` mark. -/
structure TickResult where
  db : Store
  selected : Option TaskRec
  afterMark : Store

/-- `handleGenerateImprovementsCron` from `tasks.service.ts`: find the
first record with status `queued` (no-op when none), mark it `processing`
by path, run the pipeline, then persist `error` on a `Result` error and
`processed` on success.  A rejection thrown by the pipeline escapes the
handler, so neither final write happens. -/
def handleGenerateImprovementsCron (env : Env) (db : Store) : TickResult :=
  match db.files.find? (fun f => f.status == Status.queued) with
  | none => ⟨db, none, db⟩
  | some file =>
    let db₁ := setStatusByPath db file.path Status.processing
    match handleGenerateImprovements env db.repos file with
    | .thrown _ _ => ⟨db₁, some file, db₁⟩
    | .resultErr _ _ => ⟨setStatusByPath db₁ file.path Status.error, some file, db₁⟩
    | .ok _ => ⟨setStatusByPath db₁ file.path Status.processed, some file, db₁⟩

/-- Run a sequence of ticks, each with its own environment. -/
def runTicks : List Env → Store → Store
  | [], db => db
  | e :: es, db => runTicks es (handleGenerateImprovementsCron e db).db

/-- All persisted-store snapshots produced by a sequence of ticks, in
order: for each tick, the store after the `processing` mark and the store
at the end of the tick. -/
def runSnapshots : List Env → Store → List Store
  | [], _ => []
  | e :: es, db =>
      let r := handleGenerateImprovementsCron e db
      r.afterMark :: r.db :: runSnapshots es r.db

/-! ## Helper lemmas -/

theorem strictEqStr_eq_true_iff (v : JSVal) (s : String) :
    strictEqStr v s = true ↔ v = .vStr s := by
  cases v <;> simp [strictEqStr]

theorem notUndefined_eq_true_iff (v : JSVal) :
    notUndefined v = true ↔ v ≠ .vUndefined := by
  cases v <;> simp [notUndefined]

theorem isStrVal_typeof (v : JSVal) (h : isStrVal v = true) :
    typeofStr v = "string" := by
  cases v <;> simp_all [isStrVal, typeofStr]

theorem isObjVal_truthy (v : JSVal) (h : isObjVal v = true) :
    truthy v = true := by
  cases v <;> simp_all [isObjVal, truthy]

theorem isTimestampVal_truthy (v : JSVal) (h : isTimestampVal v = true) :
    truthy v = true := by
  cases v <;> simp_all [isTimestampVal, truthy]

theorem isEventTypeSentinel_notUndefined (v : JSVal)
    (h : isEventTypeSentinel v = true) : notUndefined v = true := by
  cases v <;> simp_all [isEventTypeSentinel, notUndefined]

theorem errRun_attempts (st : HubState) (n : Nat) :
    (errRun st n).reconnectAttempts = st.reconnectAttempts + n := by
  induction n with
  | zero => rfl
  | succ n ih => simp [errRun, onError, ih]; omega

/-- The structural progress-payload match performed at the boundary:
presence and type of the required fields — string `taskId`, `repoId`,
`filePath`, `repoName`, `message`, and a defined `eventType` — on a truthy
value. -/
def matchesProgressShape (x : JSVal) : Prop :=
  truthy x = true ∧
  typeofStr (getField x "taskId") = "string" ∧
  typeofStr (getField x "repoId") = "string" ∧
  typeofStr (getField x "filePath") = "string" ∧
  typeofStr (getField x "repoName") = "string" ∧
  getField x "eventType" ≠ .vUndefined ∧
  typeofStr (getField x "message") = "string"

theorem isTaskProgressEvent_iff (x : JSVal) :
    isTaskProgressEvent x = true ↔ matchesProgressShape x := by
  simp [isTaskProgressEvent, matchesProgressShape, Bool.and_eq_true,
    notUndefined_eq_true_iff, and_assoc]

/-! ## Claim theorems: the client-side EventHub -/

/-- Claim C6: for every number `n` of consecutive connection failures
starting at 0, the scheduled reconnection delay is
`min (1000 * 2 ^ n) 30000` ms, the sequence begins
1000, 2000, 4000, 8000, 16000, 30000 and stays at 30000 from the sixth
failure on, and a successful open resets the attempt counter to 0. -/
theorem c6_reconnect_backoff (st : HubState) (h : st.reconnectAttempts = 0) :
    (∀ n, nthDelay st n = min (1000 * 2 ^ n) 30000) ∧
    (∀ n, 5 ≤ n → nthDelay st n = 30000) ∧
    (List.range 6).map (nthDelay st) = [1000, 2000, 4000, 8000, 16000, 30000] ∧
    (∀ st' : HubState, (onOpen st').reconnectAttempts = 0) := by
  have hmain : ∀ n, nthDelay st n = min (1000 * 2 ^ n) 30000 := by
    intro n
    simp [nthDelay, onError, backoffDelay, errRun_attempts, h]
  refine ⟨hmain, ?_, ?_, fun st' => rfl⟩
  · intro n hn
    have h32 : 32 ≤ 2 ^ n := by
      calc 32 = 2 ^ 5 := by norm_num
        _ ≤ 2 ^ n := Nat.pow_le_pow_right (by norm_num) hn
    rw [hmain n]
    omega
  · rw [show List.range 6 = [0, 1, 2, 3, 4, 5] from rfl]
    simp [hmain]

/-- Witness for C6 at a concrete fresh hub state. -/
theorem c6_reconnect_backoff_witness :
    nthDelay ⟨false, none, none, 0, fun _ => []⟩ 6 = 30000 ∧
    (onOpen ⟨false, none, none, 3, fun _ => []⟩).reconnectAttempts = 0 :=
  ⟨(c6_reconnect_backoff ⟨false, none, none, 0, fun _ => []⟩ rfl).2.1 6 (by norm_num),
   (c6_reconnect_backoff ⟨false, none, none, 0, fun _ => []⟩ rfl).2.2.2
     ⟨false, none, none, 3, fun _ => []⟩⟩

/-- Claim C7: when an incoming event's textual payload fails to parse, the
handler returns the state unchanged (so `lastEvent`, the connection flags
and the registry are untouched) and invokes no listener; the handler is a
total function, so no exception escapes it. -/
theorem c7_malformed_payload_dropped (parse : String → Option JSVal)
    (st : HubState) (kind : SSEEventType) (raw : String)
    (h : parse raw = none) :
    handleIncoming parse st kind raw = (st, []) := by
  simp [handleIncoming, h]

/-- Witness for C7: a concrete malformed payload on a concrete state. -/
theorem c7_malformed_payload_dropped_witness :
    handleIncoming (fun _ => none)
      ⟨true, none, none, 0, fun _ => [⟨1, fun _ => Except.error "boom"⟩]⟩
      SSEEventType.heartbeat "not json" =
      (⟨true, none, none, 0, fun _ => [⟨1, fun _ => Except.error "boom"⟩]⟩, []) :=
  c7_malformed_payload_dropped (fun _ => none)
    ⟨true, none, none, 0, fun _ => [⟨1, fun _ => Except.error "boom"⟩]⟩
    SSEEventType.heartbeat "not json" rfl

/-- Claim C8: on a successfully parsed event, every listener registered for
its kind is invoked with the event, in order, with each listener's throw
caught individually — so one throwing listener stops neither its siblings
nor anything else; the connection flags, the attempt counter and the whole
registry (hence listeners of other kinds) are unchanged, and delivery of
any later event produces exactly the invocations it would have produced
before this event. -/
theorem c8_listener_isolation (parse : String → Option JSVal) (st : HubState)
    (kind : SSEEventType) (raw : String) (d : JSVal)
    (h : parse raw = some d) :
    (handleIncoming parse st kind raw).2 =
      (st.listeners kind).map (fun l => runCaught l ⟨kind, d⟩) ∧
    (∀ l ∈ st.listeners kind,
      runCaught l ⟨kind, d⟩ ∈ (handleIncoming parse st kind raw).2) ∧
    (handleIncoming parse st kind raw).1.isConnected = st.isConnected ∧
    (handleIncoming parse st kind raw).1.connectionError = st.connectionError ∧
    (handleIncoming parse st kind raw).1.reconnectAttempts = st.reconnectAttempts ∧
    (handleIncoming parse st kind raw).1.listeners = st.listeners ∧
    (∀ (kind₂ : SSEEventType) (raw₂ : String),
      (handleIncoming parse (handleIncoming parse st kind raw).1 kind₂ raw₂).2 =
        (handleIncoming parse st kind₂ raw₂).2) := by
  refine ⟨?_, ?_, ?_, ?_, ?_, ?_, ?_⟩ <;>
    simp [handleIncoming, h, notifyListeners]
  · intro l hl
    exact ⟨l, hl, rfl⟩
  · intro kind₂ raw₂
    cases h₂ : parse raw₂ <;> simp [h₂, notifyListeners]

/-- Witness for C8: a throwing listener followed by a normal one; both are
invoked, the throw is caught, and the connection flag is untouched. -/
theorem c8_listener_isolation_witness :
    (handleIncoming (fun _ => some (.vStr "p"))
      ⟨true, none, none, 0,
        fun _ => [⟨1, fun _ => Except.error "boom"⟩, ⟨2, fun _ => Except.ok ()⟩]⟩
      SSEEventType.taskProgress "x").2 = [(1, some "boom"), (2, none)] ∧
    (handleIncoming (fun _ => some (.vStr "p"))
      ⟨true, none, none, 0,
        fun _ => [⟨1, fun _ => Except.error "boom"⟩, ⟨2, fun _ => Except.ok ()⟩]⟩
      SSEEventType.taskProgress "x").1.isConnected = true :=
  ⟨((c8_listener_isolation (fun _ => some (.vStr "p"))
      ⟨true, none, none, 0,
        fun _ => [⟨1, fun _ => Except.error "boom"⟩, ⟨2, fun _ => Except.ok ()⟩]⟩
      SSEEventType.taskProgress "x" (.vStr "p") rfl).1).trans rfl,
   ((c8_listener_isolation (fun _ => some (.vStr "p"))
      ⟨true, none, none, 0,
        fun _ => [⟨1, fun _ => Except.error "boom"⟩, ⟨2, fun _ => Except.ok ()⟩]⟩
      SSEEventType.taskProgress "x" (.vStr "p") rfl).2.2.1).trans rfl⟩

/-- Claim C9: `isTaskCompletedEvent x` holds iff `x` passes the structural
progress-payload match and its `eventType` is the string `complete`;
`isTaskErrorEvent x` holds iff it passes the match, its `eventType` is the
string `error`, and `metadata?.error` is defined (the code's reading of a
populated `metadata.error`). -/
theorem c9_completed_error_guard_iff (x : JSVal) :
    (isTaskCompletedEvent x = true ↔
      matchesProgressShape x ∧ getField x "eventType" = .vStr "complete") ∧
    (isTaskErrorEvent x = true ↔
      matchesProgressShape x ∧ getField x "eventType" = .vStr "error" ∧
        optChainField x "metadata" "error" ≠ .vUndefined) := by
  constructor
  · rw [isTaskCompletedEvent, Bool.and_eq_true, isTaskProgressEvent_iff,
      strictEqStr_eq_true_iff]
  · rw [isTaskErrorEvent, Bool.and_eq_true, Bool.and_eq_true,
      isTaskProgressEvent_iff, strictEqStr_eq_true_iff,
      notUndefined_eq_true_iff, and_assoc]

/-- Claim C10: the shape-check helpers never reject a well-formed payload:
each of the five helpers returns `true` on every payload that is
well-formed for its kind. -/
theorem c10_no_false_negative (x : JSVal) :
    (wellFormedProgressPayload x = true → isTaskProgressEvent x = true) ∧
    (wellFormedStartedPayload x = true → isTaskStartedEvent x = true) ∧
    (wellFormedCompletedPayload x = true → isTaskCompletedEvent x = true) ∧
    (wellFormedErrorPayload x = true → isTaskErrorEvent x = true) ∧
    (wellFormedHeartbeatPayload x = true → isHeartbeatEvent x = true) := by
  have hprog : wellFormedProgressPayload x = true → isTaskProgressEvent x = true := by
    intro h
    simp only [wellFormedProgressPayload, Bool.and_eq_true] at h
    obtain ⟨⟨⟨⟨⟨⟨⟨⟨hobj, h₁⟩, h₂⟩, h₃⟩, h₄⟩, hev⟩, hmsg⟩, hts⟩, hmeta⟩
      := h
    simp only [isTaskProgressEvent, Bool.and_eq_true, beq_iff_eq]
    exact ⟨⟨⟨⟨⟨⟨isObjVal_truthy x hobj, isStrVal_typeof _ h₁⟩,
      isStrVal_typeof _ h₂⟩, isStrVal_typeof _ h₃⟩, isStrVal_typeof _ h₄⟩,
      isEventTypeSentinel_notUndefined _ hev⟩, isStrVal_typeof _ hmsg⟩
  refine ⟨hprog, ?_, ?_, ?_, ?_⟩
  · intro h
    simp only [wellFormedStartedPayload, Bool.and_eq_true] at h
    obtain ⟨⟨⟨⟨⟨hobj, h₁⟩, h₂⟩, h₃⟩, h₄⟩, hts⟩ := h
    simp only [isTaskStartedEvent, Bool.and_eq_true, beq_iff_eq]
    exact ⟨⟨⟨⟨isObjVal_truthy x hobj, isStrVal_typeof _ h₁⟩,
      isStrVal_typeof _ h₂⟩, isStrVal_typeof _ h₃⟩, isStrVal_typeof _ h₄⟩
  · intro h
    simp only [wellFormedCompletedPayload, Bool.and_eq_true] at h
    simp only [isTaskCompletedEvent, Bool.and_eq_true]
    exact ⟨hprog h.1, h.2⟩
  · intro h
    simp only [wellFormedErrorPayload, Bool.and_eq_true] at h
    obtain ⟨⟨hwf, hev⟩, herr⟩ := h
    simp only [isTaskErrorEvent, Bool.and_eq_true]
    refine ⟨⟨hprog hwf, hev⟩, ?_⟩
    have hmeta : isObjVal (getField x "metadata") = true := by
      simp only [wellFormedProgressPayload, Bool.and_eq_true] at hwf
      have hm := hwf.2
      rcases Bool.or_eq_true _ _ |>.mp hm with hu | ho
      · exfalso
        cases hgm : getField x "metadata" <;>
          simp_all [notUndefined, getField, isStrVal]
      · exact ho
    have hoc : ∀ fs, getField x "metadata" = JSVal.vObj fs →
        optChainField x "metadata" "error" = getFieldList fs "error" := by
      intro fs hgm
      unfold optChainField
      rw [hgm]
      rfl
    cases hgm : getField x "metadata" <;> rw [hgm] at hmeta <;>
      simp only [isObjVal, Bool.false_eq_true] at hmeta
    case vObj fs =>
      rw [hgm] at herr
      simp only [getField] at herr
      rw [hoc fs hgm]
      cases hge : getFieldList fs "error" <;> simp_all [isStrVal, notUndefined]
  · intro h
    simp only [wellFormedHeartbeatPayload, Bool.and_eq_true] at h
    simp only [isHeartbeatEvent, Bool.and_eq_true]
    exact ⟨isObjVal_truthy x h.1, isTimestampVal_truthy _ h.2⟩

/-- Witness for C10: one concrete well-formed payload per event kind. -/
theorem c10_no_false_negative_witness :
    isTaskProgressEvent (.vObj [("taskId", .vStr "t1"), ("repoId", .vStr "r1"),
      ("filePath", .vStr "src/a.ts"), ("repoName", .vStr "widgets"),
      ("eventType", .vStr "setup-repo"), ("message", .vStr "cloning"),
      ("timestamp", .vStr "2026-10-12T00:00:00Z")]) = true ∧
    isTaskStartedEvent (.vObj [("taskId", .vStr "t1"), ("repoId", .vStr "r1"),
      ("filePath", .vStr "src/a.ts"), ("repoName", .vStr "widgets"),
      ("timestamp", .vStr "2026-10-12T00:00:00Z")]) = true ∧
    isTaskCompletedEvent (.vObj [("taskId", .vStr "t1"), ("repoId", .vStr "r1"),
      ("filePath", .vStr "src/a.ts"), ("repoName", .vStr "widgets"),
      ("eventType", .vStr "complete"), ("message", .vStr "done"),
      ("timestamp", .vStr "2026-10-12T00:00:00Z")]) = true ∧
    isTaskErrorEvent (.vObj [("taskId", .vStr "t1"), ("repoId", .vStr "r1"),
      ("filePath", .vStr "src/a.ts"), ("repoName", .vStr "widgets"),
      ("eventType", .vStr "error"), ("message", .vStr "failed"),
      ("timestamp", .vStr "2026-10-12T00:00:00Z"),
      ("metadata", .vObj [("error", .vStr "boom")])]) = true ∧
    isHeartbeatEvent (.vObj [("timestamp", .vStr "2026-10-12T00:00:00Z")]) = true :=
  ⟨(c10_no_false_negative _).1 rfl,
   (c10_no_false_negative _).2.1 rfl,
   (c10_no_false_negative _).2.2.1 rfl,
   (c10_no_false_negative _).2.2.2.1 rfl,
   (c10_no_false_negative _).2.2.2.2 rfl⟩

/-! ## Helper lemmas and concrete fixtures for the task poller -/

/-- An environment in which every external call succeeds and the AI adapter
returns usable content. -/
def envAllOk : Env :=
  { repoNameFromUrl := fun _ => Except.ok "widgets"
    uuid := "uuid-1"
    cp := .ok ()
    checkoutBranch := .ok ()
    readTestFile := .ok "old tests"
    readSourceFile := .ok "source"
    genai := fun _ _ => .ok (some "revised tests")
    writeTest := .ok ()
    commitPush := .ok ()
    submitPR := .ok (.ok ()) }

/-- An environment in which the workspace copy (`fs.cp`) rejects. -/
def envCpFail : Env :=
  { envAllOk with cp := .threw "EACCES: permission denied" }

/-- An environment in which every step before the AI call succeeds and the
adapter returns no usable content. -/
def envAiEmpty : Env :=
  { envAllOk with genai := fun _ _ => .ok none }

/-- A store with a single queued task whose repository exists. -/
def dbOneQueued : Store :=
  ⟨[⟨1, 1, "src/a.ts", Status.queued⟩], [⟨1, "https://github.com/acme/widgets"⟩]⟩

/-- A store with two queued tasks in different repositories that share the
same file path. -/
def dbDupQueued : Store :=
  ⟨[⟨1, 1, "src/a.ts", Status.queued⟩, ⟨2, 2, "src/a.ts", Status.queued⟩],
   [⟨1, "https://github.com/acme/widgets"⟩, ⟨2, "https://github.com/acme/gadgets"⟩]⟩

/-- A store in which an already-processed task coexists with a queued task
for the same file path. -/
def dbBackward : Store :=
  ⟨[⟨1, 1, "src/a.ts", Status.processed⟩, ⟨2, 2, "src/a.ts", Status.queued⟩],
   [⟨1, "https://github.com/acme/widgets"⟩, ⟨2, "https://github.com/acme/gadgets"⟩]⟩

theorem setStatusByPath_mem_status (db : Store) (p : String) (s : Status) :
    ∀ g ∈ (setStatusByPath db p s).files, g.path = p → g.status = s := by
  intro g hg hp
  simp only [setStatusByPath, List.mem_map] at hg
  obtain ⟨f, hf, hfg⟩ := hg
  by_cases hfp : f.path = p
  · rw [← hfg]
    simp [hfp]
  · rw [← hfg] at hp ⊢
    simp [hfp] at hp ⊢

theorem setStatusByPath_map_path (db : Store) (p : String) (s : Status) :
    (setStatusByPath db p s).files.map (fun f => f.path) =
      db.files.map (fun f => f.path) := by
  simp only [setStatusByPath, List.map_map]
  apply List.map_congr_left
  intro f _
  by_cases hfp : f.path = p <;> simp [hfp]

/-! ## Claim theorem: C1 (code bug) -/

/-- Claim C1 fails on the code: `handleGenerateImprovements` awaits the
filesystem, shell and AI calls without a `try`/`catch`, so a rejected
promise escapes both it and the cron handler.  At the concrete failing
input — one queued task whose repository exists, with `fs.cp` rejecting —
the tick leaves the selected record in status `processing`, which is
neither `processed` nor `error`. -/
theorem c1_io_failure_leaves_processing :
    handleGenerateImprovements envCpFail dbOneQueued.repos
        ⟨1, 1, "src/a.ts", Status.queued⟩ =
      .thrown "EACCES: permission denied" noEffects ∧
    (handleGenerateImprovementsCron envCpFail dbOneQueued).db.files.map
        (fun f => f.status) = [Status.processing] ∧
    Status.processing ≠ Status.processed ∧ Status.processing ≠ Status.error :=
  ⟨rfl, rfl, by decide, by decide⟩

/-! ## Claim theorem: C5 -/

/-- Claim C5: when the pipeline reaches the AI call (repo resolved, name
parsed, copy, checkout and both reads succeeded) and the adapter returns
empty or falsy content, the run returns the `no response returned` error
with no test-file write, no staged commit/push and no PR submission, and
the tick persists status `error` for the selected record. -/
theorem c5_falsy_response_aborts (env : Env) (db : Store) (file : TaskRec)
    (hsel : db.files.find? (fun f => f.status == Status.queued) = some file)
    (hrepo : ∃ r, db.repos.find? (fun rr => rr.id == file.repoId) = some r ∧
      ∃ nm, env.repoNameFromUrl r.url = .ok nm)
    (hcp : env.cp = .ok ())
    (hco : env.checkoutBranch = .ok ())
    (hrt : ∃ s, env.readTestFile = .ok s)
    (hrs : ∃ s, env.readSourceFile = .ok s)
    (hai : ∀ a b, env.genai a b = .ok none ∨ env.genai a b = .ok (some "")) :
    (∃ eff, handleGenerateImprovements env db.repos file =
        .resultErr "no response returned" eff ∧
      eff.wroteTestPath = none ∧ eff.ranCommitPush = false ∧
      eff.submittedPR = false) ∧
    (∀ g ∈ (handleGenerateImprovementsCron env db).db.files,
      g.path = file.path → g.status = Status.error) := by
  obtain ⟨r, hr, nm, hnm⟩ := hrepo
  obtain ⟨tc, hrt⟩ := hrt
  obtain ⟨sc, hrs⟩ := hrs
  have hpipe : handleGenerateImprovements env db.repos file =
      .resultErr "no response returned"
        ⟨true, true,
         some (pathJoin (pathJoin "./repos" (nm ++ "-" ++ env.uuid))
           (derivedTestPath file.path)),
         some (pathJoin (pathJoin "./repos" (nm ++ "-" ++ env.uuid)) file.path),
         none, false, false⟩ := by
    unfold handleGenerateImprovements
    simp only [hr, hnm, hcp, hco, hrt, hrs]
    rcases hai tc sc with hg | hg <;> simp only [hg] <;> rfl
  constructor
  · exact ⟨_, hpipe, rfl, rfl, rfl⟩
  · intro g hg hp
    unfold handleGenerateImprovementsCron at hg
    simp only [hsel, hpipe] at hg
    exact setStatusByPath_mem_status _ file.path Status.error g hg hp

/-- Witness for C5: the concrete empty-response environment on the
single-queued-task store. -/
theorem c5_falsy_response_aborts_witness :
    (∃ eff, handleGenerateImprovements envAiEmpty dbOneQueued.repos
        ⟨1, 1, "src/a.ts", Status.queued⟩ =
        .resultErr "no response returned" eff ∧
      eff.wroteTestPath = none ∧ eff.ranCommitPush = false ∧
      eff.submittedPR = false) ∧
    (∀ g ∈ (handleGenerateImprovementsCron envAiEmpty dbOneQueued).db.files,
      g.path = "src/a.ts" → g.status = Status.error) :=
  c5_falsy_response_aborts envAiEmpty dbOneQueued ⟨1, 1, "src/a.ts", Status.queued⟩
    rfl ⟨⟨1, "https://github.com/acme/widgets"⟩, rfl, "widgets", rfl⟩
    rfl rfl ⟨"old tests", rfl⟩ ⟨"source", rfl⟩ (fun _ _ => Or.inl rfl)

/-! ## Claim theorems: C2 -/

theorem startsWithL_refl (l : List Char) : startsWithL l l = true := by
  induction l with
  | nil => rfl
  | cons c cs ih => simp [startsWithL, ih]

/-- First-occurrence replacement on `s₁ ++ pat` where no occurrence of
`pat` starts before the final one: the result is `s₁ ++ rep`. -/
theorem replaceFirstL_append (pat rep : List Char) :
    ∀ s₁ : List Char,
      (∀ i, i < s₁.length → startsWithL pat ((s₁ ++ pat).drop i) = false) →
      replaceFirstL pat rep (s₁ ++ pat) = s₁ ++ rep := by
  intro s₁
  induction s₁ with
  | nil =>
      intro _
      cases pat with
      | nil => simp [replaceFirstL, startsWithL]
      | cons c cs =>
          simp only [List.nil_append]
          rw [replaceFirstL, if_pos (startsWithL_refl (c :: cs))]
          simp [List.drop_length]
  | cons c cs ih =>
      intro hno
      have h0 : startsWithL pat (c :: (cs ++ pat)) = false := by
        have := hno 0 (by simp)
        simpa using this
      rw [List.cons_append, replaceFirstL, if_neg (by simp [h0]), List.cons_append]
      congr 1
      apply ih
      intro i hi
      have := hno (i + 1) (by simpa using Nat.succ_lt_succ hi)
      simpa using this

/-- In every pipeline run, the test path that gets overwritten is exactly
the test path that was read. -/
theorem pipeline_write_read_same (env : Env) (repos : List RepoRec)
    (file : TaskRec) (w : String) :
    (handleGenerateImprovements env repos file).effects.wroteTestPath = some w →
    (handleGenerateImprovements env repos file).effects.readTestPath = some w := by
  unfold handleGenerateImprovements
  repeat' split
  all_goals simp [PipeResult.effects, noEffects]

/-- Claim C2 fails on the code: the service derives the test path with
`filePath.replace('.ts', '.test.ts')`, which rewrites the first occurrence
of `.ts` anywhere in the path, not the final extension.  On the concrete
source path `a.tsx.ts` the code reads and writes `a.test.tsx.ts`, while the
extension-swapped path is `a.tsx.test.ts`. -/
theorem c2_first_occurrence_counterexample :
    derivedTestPath "a.tsx.ts" = "a.test.tsx.ts" ∧
    specSwapExtPath "a.tsx.ts" = "a.tsx.test.ts" ∧
    derivedTestPath "a.tsx.ts" ≠ specSwapExtPath "a.tsx.ts" :=
  ⟨by decide, by decide, by decide⟩

/-- Claim C2, amended: the read and overwritten test paths coincide, and
they equal the source path with the first occurrence of `.ts` replaced by
`.test.ts`; this is the extension swap exactly when no occurrence of `.ts`
starts before the final extension. -/
theorem c2_test_path_derivation (env : Env) (repos : List RepoRec)
    (file : TaskRec) (stem : String)
    (hno : ∀ i, i < stem.data.length →
      startsWithL (String.data ".ts") ((stem.data ++ String.data ".ts").drop i) = false) :
    (∀ w, (handleGenerateImprovements env repos file).effects.wroteTestPath = some w →
      (handleGenerateImprovements env repos file).effects.readTestPath = some w) ∧
    derivedTestPath (stem ++ ".ts") = stem ++ ".test.ts" := by
  constructor
  · exact fun w => pipeline_write_read_same env repos file w
  · unfold derivedTestPath jsReplaceFirst
    apply String.ext
    simp only [String.data_append]
    exact replaceFirstL_append _ _ stem.data hno

/-- Witness for C2's amended theorem on the concrete stem `src/app`. -/
theorem c2_test_path_derivation_witness :
    derivedTestPath ("src/app" ++ ".ts") = "src/app" ++ ".test.ts" :=
  (c2_test_path_derivation envAllOk dbOneQueued.repos
    ⟨1, 1, "src/app.ts", Status.queued⟩ "src/app" (by decide)).2

/-! ## Claim theorems: C3 -/

/-- The number of records that change to status `s` between two stores'
file lists (compared positionally). -/
def transitionsTo (l l' : List TaskRec) (s : Status) : Nat :=
  ((l.zip l').filter (fun q => decide (q.1.status ≠ s ∧ q.2.status = s))).length

theorem transitionsTo_mark (l : List TaskRec) (p : String) (s : Status) :
    transitionsTo l
      (l.map (fun f => if f.path == p then { f with status := s } else f)) s =
      (l.filter (fun f => f.path == p && !(f.status == s))).length := by
  induction l with
  | nil => rfl
  | cons f l ih =>
      by_cases hp : f.path = p <;> by_cases hs : f.status = s <;>
        simp [transitionsTo, List.filter_cons, hp, hs] <;>
        simpa [transitionsTo] using ih

theorem filter_path_length_one (l : List TaskRec)
    (hnd : (l.map (fun f => f.path)).Nodup) (file : TaskRec) (hmem : file ∈ l) :
    (l.filter (fun f => f.path == file.path)).length = 1 := by
  induction l with
  | nil => cases hmem
  | cons a l ih =>
      simp only [List.map_cons, List.nodup_cons] at hnd
      obtain ⟨hna, hnd⟩ := hnd
      rcases List.mem_cons.mp hmem with rfl | hmem'
      · have hl : l.filter (fun f => f.path == file.path) = [] := by
          rw [List.filter_eq_nil_iff]
          intro f hf
          simp only [beq_iff_eq]
          intro he
          exact hna (he ▸ List.mem_map_of_mem (fun f => f.path) hf)
        simp [List.filter_cons, hl]
      · have hafp : ¬(a.path = file.path) := by
          intro he
          exact hna (he ▸ List.mem_map_of_mem (fun f => f.path) hmem')
        simp only [List.filter_cons, beq_iff_eq, hafp]
        simpa using ih hnd hmem'

/-- Claim C3 fails on the code: the `processing` write is keyed by file
path, so with two queued records in different repositories sharing the
path `src/a.ts`, one tick transitions two records to `processing`. -/
theorem c3_duplicate_path_counterexample :
    transitionsTo dbDupQueued.files
      (handleGenerateImprovementsCron envAllOk dbDupQueued).afterMark.files
      Status.processing = 2 ∧
    transitionsTo dbDupQueued.files
      (handleGenerateImprovementsCron envAllOk dbDupQueued).afterMark.files
      Status.processing ≠ 1 :=
  ⟨by decide, by decide⟩

/-- Claim C3, amended: per tick, if no record is queued the tick is a
no-op; otherwise exactly the first queued record is selected (so at most
one selection per tick) and the `processing` write is keyed by its path —
every record sharing that path transitions together, hence exactly one
record transitions to `processing` when no two records share a path. -/
theorem c3_one_selected_per_tick (env : Env) (db : Store) :
    (db.files.find? (fun f => f.status == Status.queued) = none →
      handleGenerateImprovementsCron env db = ⟨db, none, db⟩) ∧
    (∀ file, db.files.find? (fun f => f.status == Status.queued) = some file →
      (handleGenerateImprovementsCron env db).selected = some file ∧
      (handleGenerateImprovementsCron env db).afterMark =
        setStatusByPath db file.path Status.processing ∧
      ((db.files.map (fun f => f.path)).Nodup →
        transitionsTo db.files
          (handleGenerateImprovementsCron env db).afterMark.files
          Status.processing = 1)) := by
  constructor
  · intro h
    unfold handleGenerateImprovementsCron
    rw [h]
  · intro file hsel
    have hq : file.status = Status.queued := by
      have := List.find?_some hsel
      simpa using this
    have hmem : file ∈ db.files := List.mem_of_find?_eq_some hsel
    have hsel1 : (handleGenerateImprovementsCron env db).selected = some file := by
      unfold handleGenerateImprovementsCron
      simp only [hsel]
      cases handleGenerateImprovements env db.repos file <;> rfl
    have hmark : (handleGenerateImprovementsCron env db).afterMark =
        setStatusByPath db file.path Status.processing := by
      unfold handleGenerateImprovementsCron
      simp only [hsel]
      cases handleGenerateImprovements env db.repos file <;> rfl
    refine ⟨hsel1, hmark, ?_⟩
    intro hnd
    rw [hmark]
    have hfiles : (setStatusByPath db file.path Status.processing).files =
        db.files.map (fun f =>
          if f.path == file.path then { f with status := Status.processing } else f) := rfl
    rw [hfiles, transitionsTo_mark]
    have hcong : ∀ f ∈ db.files,
        (f.path == file.path && !(f.status == Status.processing)) =
          (f.path == file.path) := by
      intro f hf
      by_cases hfp : f.path = file.path
      · have : f = file :=
          List.inj_on_of_nodup_map hnd hf hmem hfp
        subst this
        simp [hq]
      · simp [hfp]
    rw [List.filter_congr hcong]
    exact filter_path_length_one db.files hnd file hmem

/-- Witness for C3's amended theorem: the no-queued branch on a processed
store, and the selection branch on the single-queued store. -/
theorem c3_one_selected_per_tick_witness :
    handleGenerateImprovementsCron envAllOk
        ⟨[⟨1, 1, "src/a.ts", Status.processed⟩], []⟩ =
      ⟨⟨[⟨1, 1, "src/a.ts", Status.processed⟩], []⟩, none,
        ⟨[⟨1, 1, "src/a.ts", Status.processed⟩], []⟩⟩ ∧
    transitionsTo dbOneQueued.files
      (handleGenerateImprovementsCron envAllOk dbOneQueued).afterMark.files
      Status.processing = 1 :=
  ⟨(c3_one_selected_per_tick envAllOk
      ⟨[⟨1, 1, "src/a.ts", Status.processed⟩], []⟩).1 rfl,
   ((c3_one_selected_per_tick envAllOk dbOneQueued).2
      ⟨1, 1, "src/a.ts", Status.queued⟩ rfl).2.2 (by decide)⟩

/-! ## Claim theorems: C4 -/

/-- Legal one-write status movement: stay, queued→processing, or
processing→{processed, error}.  Forbids every backward move and every move
into `processed`/`error` that does not come from `processing`. -/
def stepOK (s t : Status) : Prop :=
  s = t ∨ (s = Status.queued ∧ t = Status.processing) ∨
    (s = Status.processing ∧ (t = Status.processed ∨ t = Status.error))

/-- Positional record correspondence between two store snapshots: the same
record (id and path unchanged) with a legal status movement. -/
def fileStep (f f' : TaskRec) : Prop :=
  f.id = f'.id ∧ f.path = f'.path ∧ stepOK f.status f'.status

/-- Snapshot-to-snapshot store relation. -/
def storeStep (d d' : Store) : Prop :=
  List.Forall₂ fileStep d.files d'.files

theorem stepOK_refl (s : Status) : stepOK s s := Or.inl rfl

instance stepOK.decidable (s t : Status) : Decidable (stepOK s t) := by
  unfold stepOK
  exact inferInstance

theorem storeStep_refl (d : Store) : storeStep d d :=
  List.forall₂_same.mpr fun _ _ => ⟨rfl, rfl, stepOK_refl _⟩

theorem forall₂_fileStep_map_path :
    ∀ {l l' : List TaskRec}, List.Forall₂ fileStep l l' →
      l.map (fun f => f.path) = l'.map (fun f => f.path) := by
  intro l l' h
  induction h with
  | nil => rfl
  | cons hab _ ih => simp [hab.2.1, ih]

/-- The write-ahead `processing` mark is a legal snapshot step, provided no
two records share a path. -/
theorem storeStep_mark (env : Env) (db : Store)
    (hnd : (db.files.map (fun f => f.path)).Nodup) :
    storeStep db (handleGenerateImprovementsCron env db).afterMark := by
  cases hsel : db.files.find? (fun f => f.status == Status.queued) with
  | none =>
      unfold handleGenerateImprovementsCron
      simp only [hsel]
      exact storeStep_refl db
  | some file =>
      have hq : file.status = Status.queued := by
        have := List.find?_some hsel
        simpa using this
      have hmem : file ∈ db.files := List.mem_of_find?_eq_some hsel
      have hmark : (handleGenerateImprovementsCron env db).afterMark =
          setStatusByPath db file.path Status.processing := by
        unfold handleGenerateImprovementsCron
        simp only [hsel]
        cases handleGenerateImprovements env db.repos file <;> rfl
      rw [hmark]
      unfold storeStep setStatusByPath
      rw [List.forall₂_map_right_iff]
      apply List.forall₂_same.mpr
      intro f hf
      by_cases hfp : f.path = file.path
      · have hffile : f = file := List.inj_on_of_nodup_map hnd hf hmem hfp
        subst hffile
        simp only [beq_self_eq_true, if_pos]
        exact ⟨rfl, rfl, Or.inr (Or.inl ⟨hq, rfl⟩)⟩
      · simp only [beq_iff_eq, hfp, if_neg, not_false_iff]
        exact ⟨rfl, rfl, stepOK_refl _⟩

/-- Writing `processed` or `error` over the just-marked path is a legal
snapshot step (every record at that path is `processing` after the mark;
this needs no path-uniqueness). -/
theorem storeStep_set_after_mark (db : Store) (p : String) (s : Status)
    (hs : s = Status.processed ∨ s = Status.error) :
    storeStep (setStatusByPath db p Status.processing)
      (setStatusByPath (setStatusByPath db p Status.processing) p s) := by
  unfold storeStep
  rw [show (setStatusByPath (setStatusByPath db p Status.processing) p s).files =
      (setStatusByPath db p Status.processing).files.map (fun f =>
        if f.path == p then { f with status := s } else f) from rfl]
  rw [List.forall₂_map_right_iff]
  apply List.forall₂_same.mpr
  intro f hf
  by_cases hfp : f.path = p
  · have hproc : f.status = Status.processing :=
      setStatusByPath_mem_status db p Status.processing f hf hfp
    simp only [beq_iff_eq, hfp, if_pos]
    exact ⟨rfl, hfp, Or.inr (Or.inr ⟨hproc, hs⟩)⟩
  · simp only [beq_iff_eq, hfp, if_neg, not_false_iff]
    exact ⟨rfl, rfl, stepOK_refl _⟩

/-- Finishing the tick (persisting the outcome, or nothing when the
pipeline threw) is a legal snapshot step. -/
theorem storeStep_resolve (env : Env) (db : Store) :
    storeStep (handleGenerateImprovementsCron env db).afterMark
      (handleGenerateImprovementsCron env db).db := by
  cases hsel : db.files.find? (fun f => f.status == Status.queued) with
  | none =>
      unfold handleGenerateImprovementsCron
      simp only [hsel]
      exact storeStep_refl db
  | some file =>
      unfold handleGenerateImprovementsCron
      simp only [hsel]
      cases hp : handleGenerateImprovements env db.repos file with
      | thrown m e => exact storeStep_refl _
      | resultErr m e =>
          exact storeStep_set_after_mark db file.path Status.error (Or.inr rfl)
      | ok e =>
          exact storeStep_set_after_mark db file.path Status.processed (Or.inl rfl)

/-- Claim C4 fails on the code: with a processed record and a queued record
sharing a path, one tick in which the pipeline's copy step rejects moves
the processed record back to `processing` — a backward transition. -/
theorem c4_backward_counterexample :
    dbBackward.files.map (fun f => f.status) =
      [Status.processed, Status.queued] ∧
    (handleGenerateImprovementsCron envCpFail dbBackward).db.files.map
      (fun f => f.status) = [Status.processing, Status.processing] ∧
    ¬ stepOK Status.processed Status.processing :=
  ⟨by decide, by decide, by decide⟩

/-- Claim C4, amended: provided no two task records share a path, every
persisted snapshot sequence produced by any run of scheduler ticks moves
each record's status only along queued→processing→{processed|error}: the
chain relation forbids backward moves and forbids reaching
`processed`/`error` except from `processing`. -/
theorem c4_forward_only (envs : List Env) (db : Store)
    (hnd : (db.files.map (fun f => f.path)).Nodup) :
    List.Chain' storeStep (db :: runSnapshots envs db) := by
  induction envs generalizing db with
  | nil => exact List.chain'_singleton db
  | cons e es ih =>
      have h₁ : storeStep db (handleGenerateImprovementsCron e db).afterMark :=
        storeStep_mark e db hnd
      have h₂ : storeStep (handleGenerateImprovementsCron e db).afterMark
          (handleGenerateImprovementsCron e db).db := storeStep_resolve e db
      have hnd' : (((handleGenerateImprovementsCron e db).db.files.map
          (fun f => f.path))).Nodup := by
        rw [← forall₂_fileStep_map_path h₂, ← forall₂_fileStep_map_path h₁]
        exact hnd
      show List.Chain' storeStep
        (db :: (handleGenerateImprovementsCron e db).afterMark ::
          (handleGenerateImprovementsCron e db).db ::
          runSnapshots es (handleGenerateImprovementsCron e db).db)
      rw [List.chain'_cons, List.chain'_cons]
      exact ⟨h₁, h₂, ih _ hnd'⟩

/-- Witness for C4's amended theorem: two ticks over the single-queued
store with distinct paths. -/
theorem c4_forward_only_witness :
    List.Chain' storeStep
      (dbOneQueued :: runSnapshots [envAllOk, envCpFail] dbOneQueued) :=
  c4_forward_only [envAllOk, envCpFail] dbOneQueued (by decide)

end CoverageGen
